import Mathlib

/-!
Verification development for the QQ music downloader repository
(`song.py`, `songlist.py`): a shallow embedding of the quality-fallback
download pipeline, the cover resolver, the metadata writer's tag
manipulation, the filename sanitizer and the batch orchestrator, together
with theorems settling the specification's claims about them.

Conventions:
* Byte strings are `List Nat`, file paths and URLs are `String`.
* The file system is an association list `String × List Nat` (newest
  binding first); Python's `open(path, 'wb')` truncates, so a write is a
  cons that shadows older bindings.
* Network behaviour is an explicit oracle (`DlEnv`, `CoverEnv`): each
  claim quantifies over or instantiates the oracle.
-/

set_option maxRecDepth 16384

namespace QQMusic

/-! ## Configuration constants (`Config` in `song.py` / `songlist.py`) -/

/-- `Config.MIN_FILE_SIZE = 1024`. -/
def MIN_FILE_SIZE : Nat := 1024

/-- `Config.BATCH_SIZE = 5` (`songlist.py`). -/
def BATCH_SIZE : Nat := 5

/-- `Config.COVER_SIZE = 800`. -/
def COVER_SIZE : Nat := 800

/-! ## Filename sanitizer (`FileManager.sanitize_filename`)

```python
illegal_chars = ['<', '>', ':', '"', '/', '\\', '|', '?', '*']
for char in illegal_chars:
    filename = filename.replace(char, '_')
return filename.strip()
```
-/

/-- The nine illegal characters, in source order. -/
def illegal_chars : List Char := ['<', '>', ':', '"', '/', '\\', '|', '?', '*']

/-- Python `str.replace(c, r)` for single characters: character-wise map. -/
def replaceChar (c r : Char) (s : List Char) : List Char :=
  s.map (fun x => if x = c then r else x)

/-- Python `str.isspace` characters relevant to `str.strip()` (ASCII range:
space, tab, newline, carriage return, vertical tab, form feed). -/
def pyIsSpace (c : Char) : Bool :=
  c = ' ' || c = '\t' || c = '\n' || c = '\r' || c = Char.ofNat 11 || c = Char.ofNat 12

/-- Python `str.strip()`: drop leading and trailing whitespace. -/
def stripChars (s : List Char) : List Char :=
  ((s.dropWhile pyIsSpace).reverse.dropWhile pyIsSpace).reverse

/-- `FileManager.sanitize_filename`: replace each illegal character by `'_'`
(in source order), then strip surrounding whitespace. -/
def sanitize_filename (s : String) : String :=
  String.mk (stripChars (illegal_chars.foldl (fun acc c => replaceChar c '_' acc) s.data))

/-- One-pass characterisation of the nine sequential replaces. -/
def sanitizeChar (c : Char) : Char :=
  if c ∈ illegal_chars then '_' else c


/-! ## Song data (`SongInfo` dataclass) -/

/-- `SongInfo` from `song.py` / `songlist.py`. -/
structure SongInfo where
  name : String
  singer : String
  mid : String
  is_vip : Bool
  album_name : String
  album_mid : String
deriving DecidableEq

/-! ## Quality tiers

`SongFileType` comes from the external `qqmusic_api` package; only its
extension attribute `e` is consumed by the code under scrutiny
(`file_path = dir / f"{safe_filename}{file_type.e}"`). A quality strategy
is a list of `(SongFileType, label)` pairs, as returned by
`_get_quality_strategy`. -/

structure SongFileType where
  e : String
deriving DecidableEq

/-- `qqmusic_api.song.SongFileType.FLAC` (extension `.flac`). -/
def SongFileType.FLAC : SongFileType := ⟨".flac"⟩

/-- `qqmusic_api.song.SongFileType.MP3_320` (extension `.mp3`). -/
def SongFileType.MP3_320 : SongFileType := ⟨".mp3"⟩

/-- `qqmusic_api.song.SongFileType.MP3_128` (extension `.mp3`). -/
def SongFileType.MP3_128 : SongFileType := ⟨".mp3"⟩

/-- A quality strategy: ordered fallback chain of `(tier, label)` pairs. -/
abbrev Strategy := List (SongFileType × String)

/-- `QQMusicSingleDownloader._get_quality_strategy` (`song.py`). -/
def get_quality_strategy (prefer_flac : Bool) : Strategy :=
  if prefer_flac then
    [(SongFileType.FLAC, "FLAC"), (SongFileType.MP3_320, "320kbps"),
     (SongFileType.MP3_128, "128kbps")]
  else
    [(SongFileType.MP3_320, "320kbps"), (SongFileType.MP3_128, "128kbps")]

/-! ## File system

An association list from paths to byte contents, newest binding first.
`open(path, 'wb')` truncates, so a write simply shadows older bindings;
`Path.exists()` is `lookup`-success. -/

abbrev FS := List (String × List Nat)

/-- Write (create or truncate-overwrite) a file. -/
def setFile (fs : FS) (p : String) (c : List Nat) : FS := (p, c) :: fs

/-! ## Per-tier network oracle

The outcome of tier `i` of the strategy, covering
`get_song_urls` (URL resolution) and `session.get(url)` (byte fetch):
* `noUrl` — `urls.get(mid)` is `None` (tier unavailable / entitlement);
* `resp status content` — HTTP response; `content` is read only when
  `status = 200`;
* `netRaise` — an exception (timeout, transport failure) raised during the
  fetch; `NetworkManager.get_session` re-raises it as `DownloadError`. -/

inductive TierFetch where
  | noUrl : TierFetch
  | resp (status : Nat) (content : List Nat) : TierFetch
  | netRaise : TierFetch
deriving DecidableEq

/-- The environment of one track's download: what each tier's network
interaction yields (`fetch`), and what the metadata writer does at the
tier that won (`meta`): `some tagged` means `_add_metadata` succeeded and
saved the file with embedded tags (bytes `tagged`); `none` means it raised
(`MetadataError` on open/parse/save, or any other exception) — the
exception is caught inside `_add_metadata` (`except Exception`), which
leaves the audio file as written. The writer never deletes the file. -/
structure DlEnv where
  fetch : Nat → TierFetch
  meta : Nat → Option (List Nat)

/-- Network events observable during a track download: the `get_song_urls`
catalog call and the audio-byte `session.get` for tier `i`. -/
inductive NetEvent where
  | resolveUrl (i : Nat) : NetEvent
  | fetchBytes (i : Nat) : NetEvent
deriving DecidableEq

/-- The tier index of a network event. -/
def NetEvent.idx : NetEvent → Nat
  | resolveUrl i => i
  | fetchBytes i => i

/-- Whether the event is an audio-byte fetch. -/
def NetEvent.isFetch : NetEvent → Bool
  | resolveUrl _ => false
  | fetchBytes _ => true

/-- Per-track download outcome. The Python functions return a `bool`;
`skipped`/`succeeded` print distinct messages and `failed`
(`"所有音质下载失败"`) is distinct from `errored` (exception caught by the
outer handler), so the four-way outcome is observable. -/
inductive Outcome where
  | skipped (i : Nat) : Outcome
  | succeeded (i : Nat) : Outcome
  | failed : Outcome
  | errored : Outcome
deriving DecidableEq

/-- The boolean actually returned by `download_song` /
`download_single_song`. -/
def Outcome.toBool : Outcome → Bool
  | skipped _ => true
  | succeeded _ => true
  | failed => false
  | errored => false

/-! ## The quality-fallback loop

The tier loop shared by `QQMusicSingleDownloader.download_song`
(`song.py` 526–540) and `QQMusicDownloader.download_single_song`
(`songlist.py` 738–752), with `_download_with_quality` inlined
(`song.py` 546–573 / `songlist.py` 762–790):

```python
for file_type, quality_name in strategy:            # tier i
    file_path = folder / f"{safe_filename}{file_type.e}"
    if file_path.exists():
        return True                                  # skipped
    # _download_with_quality:
    urls = await get_song_urls([mid], file_type, credential)
    url = urls.get(mid)
    if not url:
        continue_to_next_tier                        # noUrl: soft miss
    async with self.network.get_session() as session:   # wraps exceptions
        async with session.get(url) as response:        # netRaise aborts
            if response.status == 200:
                content = await response.read()
                if len(content) > Config.MIN_FILE_SIZE:
                    await self._save_file(file_path, content)
                    await self._add_metadata(...)    # errors caught inside
                    return True                      # succeeded
                # undersized: soft miss
            # non-200: soft miss
return False                                         # failed
```

A `netRaise` becomes a `DownloadError` that escapes
`_download_with_quality` and is caught only by the outer
`except Exception` of `download_song` / `download_single_song`
(→ `errored`, remaining tiers abandoned). -/
def downloadLoop (env : DlEnv) (base : String) :
    Strategy → Nat → FS → Outcome × FS × List NetEvent
  | [], _, fs => (Outcome.failed, fs, [])
  | (ft, _lbl) :: rest, i, fs =>
    let path := base ++ ft.e
    if (fs.lookup path).isSome then
      (Outcome.skipped i, fs, [])
    else
      match env.fetch i with
      | TierFetch.noUrl =>
          ((downloadLoop env base rest (i+1) fs).1,
           (downloadLoop env base rest (i+1) fs).2.1,
           NetEvent.resolveUrl i :: (downloadLoop env base rest (i+1) fs).2.2)
      | TierFetch.netRaise =>
          (Outcome.errored, fs, [NetEvent.resolveUrl i, NetEvent.fetchBytes i])
      | TierFetch.resp status content =>
          if status = 200 then
            if MIN_FILE_SIZE < content.length then
              (Outcome.succeeded i,
               (match env.meta i with
                | some tagged => setFile (setFile fs path content) path tagged
                | none => setFile fs path content),
               [NetEvent.resolveUrl i, NetEvent.fetchBytes i])
            else
              ((downloadLoop env base rest (i+1) fs).1,
               (downloadLoop env base rest (i+1) fs).2.1,
               NetEvent.resolveUrl i :: NetEvent.fetchBytes i ::
                 (downloadLoop env base rest (i+1) fs).2.2)
          else
            ((downloadLoop env base rest (i+1) fs).1,
             (downloadLoop env base rest (i+1) fs).2.1,
             NetEvent.resolveUrl i :: NetEvent.fetchBytes i ::
               (downloadLoop env base rest (i+1) fs).2.2)

/-- The sanitized destination base (path without extension):
`folder / sanitize_filename(f"{singer} - {name}")`. -/
def songPath (folder : String) (info : SongInfo) : String :=
  folder ++ "/" ++ sanitize_filename (info.singer ++ " - " ++ info.name)

/-- `QQMusicSingleDownloader.download_song` (`song.py`): the tier loop on
the sanitized destination, outcome-valued. -/
def download_song (env : DlEnv) (folder : String) (info : SongInfo)
    (strategy : Strategy) (fs : FS) : Outcome × FS × List NetEvent :=
  downloadLoop env (songPath folder info) strategy 0 fs

/-- `QQMusicDownloader.download_single_song` (`songlist.py`): credential
guard, then the same tier loop; returns the boolean the caller sees. -/
def download_single_song (hasCred : Bool) (env : DlEnv) (folder : String)
    (info : SongInfo) (strategy : Strategy) (fs : FS) : Bool × FS × List NetEvent :=
  if hasCred then
    ((downloadLoop env (songPath folder info) strategy 0 fs).1.toBool,
     (downloadLoop env (songPath folder info) strategy 0 fs).2.1,
     (downloadLoop env (songPath folder info) strategy 0 fs).2.2)
  else
    (false, fs, [])

/-! ## Batch orchestrator (`QQMusicDownloader.download_songlist`)

```python
for i in range(0, len(songs), Config.BATCH_SIZE):
    batch = songs[i:i + Config.BATCH_SIZE]
    tasks = [self.download_single_song(song, folder) for song in batch]
    results = await asyncio.gather(*tasks)
    for success in results: ...count...
    print(progress)
    if i + Config.BATCH_SIZE < len(songs):
        await asyncio.sleep(1)
```

`asyncio.gather` completes the whole window (in submission order) before
the loop continues, so a window is modelled as `batch.map run`. The `fuel`
argument only bounds the recursion; `fuel = length of the track list`
suffices for any window size ≥ 1 (Python's `range` rejects step 0). -/

inductive BatchEvent where
  | progress (done succ fail : Nat) : BatchEvent
  | sleep : BatchEvent
deriving DecidableEq

/-- The window loop of `download_songlist`: `run` is the per-track
download (`download_single_song` partially applied), `bs` the window size
(`Config.BATCH_SIZE`), `done/succ/fail` the running counters. -/
def songlistLoop {α : Type} (run : α → Bool) (bs : Nat) :
    Nat → List α → Nat → Nat → Nat → (Nat × Nat) × List BatchEvent
  | _, [], _, succ, fail => ((succ, fail), [])
  | 0, _ :: _, _, succ, fail => ((succ, fail), [])
  | fuel + 1, x :: xs, done, succ, fail =>
    let batch := (x :: xs).take bs
    let results := batch.map run
    let succ1 := succ + results.count true
    let fail1 := fail + results.count false
    let rest := (x :: xs).drop bs
    let done1 := done + batch.length
    ((songlistLoop run bs fuel rest done1 succ1 fail1).1,
     BatchEvent.progress done1 succ1 fail1 ::
       (if rest.isEmpty then (songlistLoop run bs fuel rest done1 succ1 fail1).2
        else BatchEvent.sleep :: (songlistLoop run bs fuel rest done1 succ1 fail1).2))

/-- `QQMusicDownloader.download_songlist`: credential guard
(`_check_credential`, returning `(0, 0)` when absent), then the window
loop with `Config.BATCH_SIZE` over the whole track list. -/
def download_songlist {α : Type} (hasCred : Bool) (run : α → Bool)
    (tracks : List α) : (Nat × Nat) × List BatchEvent :=
  if hasCred then songlistLoop run BATCH_SIZE tracks.length tracks 0 0 0
  else ((0, 0), [])

/-! ## Cover resolver (`CoverManager`) -/

/-- Network oracle for cover probes: `none` models an exception during the
GET (caught inside `download_cover`), `some (status, content)` an HTTP
response. -/
structure CoverEnv where
  fetch : String → Option (Nat × List Nat)

/-- `content.startswith(b'\xff\xd8')`. -/
def jpegMagic (c : List Nat) : Bool := c.take 2 == [0xff, 0xd8]

/-- `content.startswith(b'\x89PNG')`. -/
def pngMagic (c : List Nat) : Bool := c.take 4 == [0x89, 0x50, 0x4e, 0x47]

/-- `CoverManager.get_cover_url_by_album_mid`. The source raises
`ValueError` on sizes outside `{150, 300, 500, 800}`; all in-scope callers
pass `Config.COVER_SIZE = 800`, so the raising branch is not modelled. -/
def get_cover_url_by_album_mid (mid : String) (size : Nat) : Option String :=
  if mid = "" then none
  else some ("https://y.gtimg.cn/music/photo_new/T002R" ++ toString size ++ "x"
    ++ toString size ++ "M000" ++ mid ++ ".jpg")

/-- `CoverManager.get_cover_url_by_vs` (same remark on sizes). -/
def get_cover_url_by_vs (vs : String) (size : Nat) : Option String :=
  if vs = "" then none
  else some ("https://y.qq.com/music/photo_new/T062R" ++ toString size ++ "x"
    ++ toString size ++ "M000" ++ vs ++ ".jpg")

/-- `CoverManager.download_cover`: `None` for a missing URL; a probe is
accepted when the status is 200, the payload exceeds
`Config.MIN_FILE_SIZE` bytes and it starts with JPEG or PNG magic; any
exception is caught and yields `None`. -/
def download_cover (env : CoverEnv) (url : Option String) : Option (List Nat) :=
  match url with
  | none => none
  | some u =>
    if u = "" then none
    else
      match env.fetch u with
      | none => none
      | some (status, content) =>
        if status = 200 then
          if MIN_FILE_SIZE < content.length then
            if jpegMagic content || pngMagic content then some content else none
          else none
        else none

/-- A `vs` candidate: `{'value': ..., 'priority': ...}` (the `source`
string is only logged). -/
structure VsCandidate where
  value : String
  priority : Nat
deriving DecidableEq

/-- Python `str.strip()`. -/
def pyStrip (s : String) : String := String.mk (stripChars s.data)

/-- Python `',' in v`. -/
def containsComma (v : String) : Bool := v.data.any (fun c => c == ',')

/-- Splitting a character list on a separator (Python `str.split(sep)`
semantics for a one-character separator: `"" → [""]`, adjacent separators
produce empty parts). -/
def splitChar (sep : Char) : List Char → List (List Char)
  | [] => [[]]
  | c :: t =>
    if c = sep then [] :: splitChar sep t
    else
      match splitChar sep t with
      | [] => [[c]]
      | h :: rt => (c :: h) :: rt

/-- Python `v.split(',')`. -/
def pySplitOnComma (v : String) : List String := (splitChar ',' v.data).map String.mk

/-- First collection pass of `get_valid_cover_url`: every non-empty,
comma-free `vs` entry of length ≥ 3, priority 1, in source order. -/
def vs_single_candidates (vs_values : List String) : List VsCandidate :=
  (vs_values.filter (fun v => !(v == "") && decide (3 ≤ v.length) && !(containsComma v))).map
    (fun v => ⟨v, 1⟩)

/-- Second collection pass: for every non-empty entry containing a comma,
each comma-split, stripped, non-empty part of length ≥ 3, priority 2, in
source order. -/
def vs_part_candidates (vs_values : List String) : List VsCandidate :=
  (vs_values.filter (fun v => !(v == "") && containsComma v)).flatMap
    (fun v => ((((pySplitOnComma v).map pyStrip).filter (fun p => !(p == ""))).filter
      (fun p => decide (3 ≤ p.length))).map (fun p => ⟨p, 2⟩))

/-- `candidate_vs.sort(key=lambda x: x['priority'])`: Python's sort is
stable, modelled by insertion sort on the priority. -/
def candidate_vs (vs_values : List String) : List VsCandidate :=
  List.insertionSort (fun a b => a.priority ≤ b.priority)
    (vs_single_candidates vs_values ++ vs_part_candidates vs_values)

/-- The probing loop over the sorted candidates, returning the first
validated URL together with the list of URLs actually fetched. -/
def try_candidates (env : CoverEnv) (size : Nat) :
    List VsCandidate → Option String × List String
  | [] => (none, [])
  | c :: rest =>
    match get_cover_url_by_vs c.value size with
    | none => try_candidates env size rest
    | some url =>
      match download_cover env (some url) with
      | some _ => (some url, [url])
      | none =>
        ((try_candidates env size rest).1, url :: (try_candidates env size rest).2)

/-- `CoverManager.get_valid_cover_url`: album-mid template first (when the
mid is non-empty), then the prioritized `vs` candidates; paired with the
trace of probed URLs. -/
def get_valid_cover_url (env : CoverEnv) (album_mid : String)
    (vs_values : List String) (size : Nat) : Option String × List String :=
  match get_cover_url_by_album_mid album_mid size with
  | some url =>
    match download_cover env (some url) with
    | some _ => (some url, [url])
    | none =>
      ((try_candidates env size (candidate_vs vs_values)).1,
       url :: (try_candidates env size (candidate_vs vs_values)).2)
  | none => try_candidates env size (candidate_vs vs_values)

/-- Spec-side recharacterisation (the ordering invariant of §4.2 in the
spec's words): the first URL in the candidate-URL list whose probe
validates. -/
def specFirstValidUrl (env : CoverEnv) (urls : List String) : Option String :=
  urls.find? (fun u => (download_cover env (some u)).isSome)

/-- Spec-side recharacterisation: the URLs probed are exactly the prefix
up to and including the first valid one (all of them if none validates). -/
def specProbed (env : CoverEnv) : List String → List String
  | [] => []
  | u :: rest =>
    if (download_cover env (some u)).isSome then [u] else u :: specProbed env rest

/-- The candidate URLs, in candidate order. -/
def candidateUrls (size : Nat) (cands : List VsCandidate) : List String :=
  cands.filterMap (fun c => get_cover_url_by_vs c.value size)

/-! ## MP3 metadata writer (`MetadataManager`, lossy path)

mutagen's `ID3` container is a dict keyed by each frame's `HashKey`:
`"TIT2"`, `"TPE1"`, `"TALB"` for the text frames, `"APIC:" + desc` for
attached pictures, and `"USLT:" + desc + ":" + lang` for lyrics.
`ID3.add(frame)` sets `self[frame.HashKey] = frame` (replacing only a
frame with the identical hash key, keeping insertion order), and
`del audio[key]` removes the exact key. The model keeps the dict as an
ordered association list of `(hashKey, frame)` pairs. -/

inductive ID3Frame where
  | TIT2 (text : String) : ID3Frame
  | TPE1 (text : String) : ID3Frame
  | TALB (text : String) : ID3Frame
  | APIC (mime : String) (desc : String) (data : List Nat) : ID3Frame
  | USLT (lang : String) (desc : String) (text : String) : ID3Frame
deriving DecidableEq

/-- mutagen frame `HashKey`. -/
def ID3Frame.hashKey : ID3Frame → String
  | TIT2 _ => "TIT2"
  | TPE1 _ => "TPE1"
  | TALB _ => "TALB"
  | APIC _ desc _ => "APIC:" ++ desc
  | USLT lang desc _ => "USLT:" ++ desc ++ ":" ++ lang

abbrev ID3Tag := List (String × ID3Frame)

/-- `key in audio`. -/
def id3Contains (tag : ID3Tag) (k : String) : Bool := tag.any (fun kv => kv.1 == k)

/-- `del audio[key]` (exact-key removal). -/
def id3Del (tag : ID3Tag) (k : String) : ID3Tag := tag.filter (fun kv => !(kv.1 == k))

/-- `audio.add(frame)`: replace the frame with the same hash key in place,
else append. -/
def id3Add (tag : ID3Tag) (f : ID3Frame) : ID3Tag :=
  if id3Contains tag f.hashKey then
    tag.map (fun kv => if kv.1 == f.hashKey then (kv.1, f) else kv)
  else tag ++ [(f.hashKey, f)]

/-- `MetadataManager._clear_existing_mp3_tags`:
`for tag in ['APIC:', 'USLT:', 'TIT2', 'TPE1', 'TALB']: if tag in audio: del audio[tag]`. -/
def clear_existing_mp3_tags (tag : ID3Tag) : ID3Tag :=
  (["APIC:", "USLT:", "TIT2", "TPE1", "TALB"]).foldl
    (fun a k => if id3Contains a k then id3Del a k else a) tag

/-- `MetadataManager._set_basic_metadata_mp3`. -/
def set_basic_metadata_mp3 (tag : ID3Tag) (info : SongInfo) : ID3Tag :=
  id3Add (id3Add (id3Add tag (ID3Frame.TIT2 info.name)) (ID3Frame.TPE1 info.singer))
    (ID3Frame.TALB info.album_name)

/-- `MetadataManager._add_cover_to_mp3`, with the cover already resolved
(URL and bytes): MIME from the URL suffix, `desc='Cover'`, `type=3`. -/
def add_cover_to_mp3 (tag : ID3Tag) (coverUrl : String) (coverData : List Nat) : ID3Tag :=
  id3Add tag (ID3Frame.APIC
    (if coverUrl.toLower.endsWith ".png" then "image/png" else "image/jpeg")
    "Cover" coverData)

/-- `MetadataManager._add_lyrics_to_mp3` (desc `'Lyrics'`, lang `'eng'`). -/
def add_lyrics_to_mp3 (tag : ID3Tag) (lyric : String) : ID3Tag :=
  id3Add tag (ID3Frame.USLT "eng" "Lyrics" lyric)

/-- The tag-level effect of `MetadataManager.add_metadata_to_mp3` on an
existing tag dict: clear, set basic frames, add the resolved cover (when
any), add lyrics (when the fetched lyric text is non-empty). -/
def add_metadata_to_mp3_tags (existing : ID3Tag) (info : SongInfo)
    (cover : Option (String × List Nat)) (lyric : Option String) : ID3Tag :=
  let a0 := clear_existing_mp3_tags existing
  let a1 := set_basic_metadata_mp3 a0 info
  let a2 := match cover with
    | some (url, data) => add_cover_to_mp3 a1 url data
    | none => a1
  match lyric with
  | some t => if t = "" then a2 else add_lyrics_to_mp3 a2 t
  | none => a2

/-- Number of embedded images (APIC frames) in a tag. -/
def countApic (tag : ID3Tag) : Nat :=
  tag.countP (fun kv => match kv.2 with
    | ID3Frame.APIC _ _ _ => true
    | _ => false)

/-! ## Concrete instances used by counterexamples and witnesses -/

/-- A payload of 3 bytes: at most `MIN_FILE_SIZE`, hence rejected. -/
def smallContent : List Nat := [1, 2, 3]

/-- A payload of 1025 bytes: strictly above `MIN_FILE_SIZE`. -/
def bigContent : List Nat := List.replicate 1025 7

/-- The scenario track of §8 of the spec. -/
def infoXY : SongInfo := ⟨"Y", "X", "m1", false, "", ""⟩

/-- Strategy `[FLAC, MP3_320]` (distinct destination paths). -/
def stratFM : Strategy := [(SongFileType.FLAC, "FLAC"), (SongFileType.MP3_320, "320kbps")]

/-- Environment for the idempotence counterexample: tier 0 responds 200
with an undersized payload, tier 1 responds 200 with a full payload; the
metadata writer fails (irrelevant here). -/
def envC1 : DlEnv :=
  ⟨fun i => if i = 0 then TierFetch.resp 200 smallContent
            else TierFetch.resp 200 bigContent,
   fun _ => none⟩

/-- Environment for the transport-error counterexample: tier 0 raises
during the fetch, tier 1 would succeed. -/
def envC2 : DlEnv :=
  ⟨fun i => if i = 0 then TierFetch.netRaise else TierFetch.resp 200 bigContent,
   fun _ => none⟩

/-- Environment for the fallback-order witness: tier 0 has no URL, every
later tier responds 200 with a full payload; metadata writing fails. -/
def envC3 : DlEnv :=
  ⟨fun i => if i = 0 then TierFetch.noUrl else TierFetch.resp 200 bigContent,
   fun _ => none⟩

/-- A file system where the tier-0 (`.flac`) destination of track
`X - Y` under folder `music` already exists. -/
def fsSkip : FS := [("music/X - Y.flac", smallContent)]

/-- An existing ID3 tag holding one embedded image whose description is
`"Front"` (hash key `"APIC:Front"`). -/
def oldCoverTag : ID3Tag := [("APIC:Front", ID3Frame.APIC "image/jpeg" "Front" [1, 2, 3])]

/-- An existing ID3 tag holding one lyrics frame exactly as the program
itself writes it (desc `'Lyrics'`, lang `'eng'`, hash key
`"USLT:Lyrics:eng"`). -/
def oldLyricsTag : ID3Tag := [("USLT:Lyrics:eng", ID3Frame.USLT "eng" "Lyrics" "la la")]

/-- A 1025-byte payload starting with the JPEG magic bytes. -/
def jpegBytes : List Nat := 0xff :: 0xd8 :: List.replicate 1023 0

/-- A cover-probe environment where every URL serves `jpegBytes` with
status 200. -/
def envC6 : CoverEnv := ⟨fun _ => some (200, jpegBytes)⟩

lemma replaceChar_cons (c r a : Char) (s : List Char) :
    replaceChar c r (a :: s) = (if a = c then r else a) :: replaceChar c r s := rfl

lemma foldl_replace_nil (L : List Char) :
    L.foldl (fun acc c => replaceChar c '_' acc) [] = [] := by
  induction L with
  | nil => rfl
  | cons c t ih => simpa [List.foldl_cons, replaceChar] using ih

lemma foldl_replace_cons (L : List Char) (a : Char) (s : List Char) :
    L.foldl (fun acc c => replaceChar c '_' acc) (a :: s)
      = (L.foldl (fun x c => if x = c then '_' else x) a)
        :: L.foldl (fun acc c => replaceChar c '_' acc) s := by
  induction L generalizing a s with
  | nil => rfl
  | cons c t ih =>
    simp only [List.foldl_cons, replaceChar_cons]
    exact ih (if a = c then '_' else a) (replaceChar c '_' s)

lemma chain_char (x : Char) :
    illegal_chars.foldl (fun x c => if x = c then '_' else x) x = sanitizeChar x := by
  simp only [illegal_chars, List.foldl_cons, List.foldl_nil]
  by_cases h : x ∈ illegal_chars
  · simp only [illegal_chars, List.mem_cons, List.not_mem_nil, or_false] at h
    rcases h with h | h | h | h | h | h | h | h | h <;> subst h <;> decide
  · simp only [illegal_chars, List.mem_cons, List.not_mem_nil, or_false, not_or] at h
    obtain ⟨h1, h2, h3, h4, h5, h6, h7, h8, h9⟩ := h
    simp [sanitizeChar, illegal_chars, h1, h2, h3, h4, h5, h6, h7, h8, h9]

lemma foldl_replace_eq_map (s : List Char) :
    illegal_chars.foldl (fun acc c => replaceChar c '_' acc) s = s.map sanitizeChar := by
  induction s with
  | nil => exact foldl_replace_nil illegal_chars
  | cons a t ih => rw [foldl_replace_cons, chain_char, List.map_cons, ih]

lemma sanitizeChar_fixed {c : Char} (h : c ∉ illegal_chars) : sanitizeChar c = c := by
  simp [sanitizeChar, h]

lemma sanitizeChar_not_illegal (c : Char) : sanitizeChar c ∉ illegal_chars := by
  by_cases h : c ∈ illegal_chars
  · simp only [sanitizeChar, h, if_pos]
    decide
  · rw [sanitizeChar, if_neg h]
    exact h

/-- Elements of `stripChars s` come from `s`. -/
lemma mem_stripChars {c : Char} {s : List Char} (h : c ∈ stripChars s) : c ∈ s := by
  simp only [stripChars, List.mem_reverse] at h
  have h1 := (List.dropWhile_sublist (l := (s.dropWhile pyIsSpace).reverse) pyIsSpace).mem h
  rw [List.mem_reverse] at h1
  exact (List.dropWhile_sublist pyIsSpace).mem h1

/-- `dropWhile` of a list whose head (if any) fails the predicate. -/
lemma dropWhile_of_head_false {p : Char → Bool} :
    ∀ {l : List Char}, (∀ a, l.head? = some a → p a = false) → l.dropWhile p = l := by
  intro l h
  cases l with
  | nil => rfl
  | cons a t =>
    have := h a rfl
    simp [List.dropWhile_cons, this]

/-- The head of `l.dropWhile p`, when it exists, fails `p`. -/
lemma head_dropWhile_false (p : Char → Bool) :
    ∀ (l : List Char) (a : Char), (l.dropWhile p).head? = some a → p a = false := by
  intro l
  induction l with
  | nil => intro a ha; simp at ha
  | cons b t ih =>
    intro a ha
    by_cases hb : p b
    · rw [List.dropWhile_cons, if_pos hb] at ha
      exact ih a ha
    · rw [List.dropWhile_cons, if_neg hb] at ha
      simp only [List.head?_cons, Option.some.injEq] at ha
      subst ha
      simpa using hb

/-- The head of `(u.reverse.dropWhile p).reverse`, when it exists, is the
head of `u` (the right-strip keeps an initial segment of `u`). -/
lemma head_of_rstrip (p : Char → Bool) (u : List Char) (a : Char)
    (ha : ((u.reverse.dropWhile p).reverse).head? = some a) : u.head? = some a := by
  obtain ⟨t, ht⟩ := List.dropWhile_suffix (l := u.reverse) p
  have hu : (u.reverse.dropWhile p).reverse ++ t.reverse = u := by
    have := congrArg List.reverse ht
    simpa [List.reverse_append] using this
  cases hv : (u.reverse.dropWhile p).reverse with
  | nil => rw [hv] at ha; simp at ha
  | cons b s =>
    rw [hv] at ha hu
    simp only [List.head?_cons, Option.some.injEq] at ha
    subst ha
    rw [← hu]
    simp

/-- The head of `stripChars l`, when it exists, is not whitespace. -/
lemma stripChars_head (l : List Char) :
    ∀ a, (stripChars l).head? = some a → pyIsSpace a = false := by
  intro a ha
  have h1 : (l.dropWhile pyIsSpace).head? = some a :=
    head_of_rstrip pyIsSpace (l.dropWhile pyIsSpace) a ha
  exact head_dropWhile_false pyIsSpace l a h1

/-- The last element of `stripChars l` (head of its reverse), when it
exists, is not whitespace. -/
lemma stripChars_reverse_head (l : List Char) :
    ∀ a, (stripChars l).reverse.head? = some a → pyIsSpace a = false := by
  intro a ha
  have hrev : (stripChars l).reverse = (l.dropWhile pyIsSpace).reverse.dropWhile pyIsSpace := by
    simp [stripChars]
  rw [hrev] at ha
  exact head_dropWhile_false pyIsSpace _ a ha

/-- Stripping is idempotent. -/
lemma stripChars_idem (l : List Char) : stripChars (stripChars l) = stripChars l := by
  have h1 : (stripChars l).dropWhile pyIsSpace = stripChars l :=
    dropWhile_of_head_false (stripChars_head l)
  show (((stripChars l).dropWhile pyIsSpace).reverse.dropWhile pyIsSpace).reverse = stripChars l
  rw [h1]
  have h2 : (stripChars l).reverse.dropWhile pyIsSpace = (stripChars l).reverse :=
    dropWhile_of_head_false (stripChars_reverse_head l)
  rw [h2, List.reverse_reverse]

/-- `sanitize_filename` in one pass: map `sanitizeChar`, then strip. -/
lemma sanitize_filename_eq (x : String) :
    sanitize_filename x = String.mk (stripChars (x.data.map sanitizeChar)) := by
  rw [sanitize_filename, foldl_replace_eq_map]

/-- C9: the filename sanitizer replaces each of the nine illegal characters
`< > : " / \ | ? *` with `'_'` and strips surrounding whitespace; it is a
pure total Lean function; `sanitize_filename "A/B:C*D" = "A_B_C_D"`; and it
is idempotent. -/
theorem sanitize_example_and_idempotent :
    sanitize_filename "A/B:C*D" = "A_B_C_D"
    ∧ ∀ x : String, sanitize_filename (sanitize_filename x) = sanitize_filename x := by
  constructor
  · decide
  · intro x
    rw [sanitize_filename_eq x]
    set t := stripChars (x.data.map sanitizeChar) with ht
    have hdata : (String.mk t).data = t := rfl
    rw [sanitize_filename, hdata, foldl_replace_eq_map]
    have hfix : t.map sanitizeChar = t := by
      have hfx : ∀ c ∈ t, sanitizeChar c = c := by
        intro c hc
        have hmem : c ∈ x.data.map sanitizeChar := mem_stripChars (ht ▸ hc)
        obtain ⟨b, _, hb⟩ := List.mem_map.mp hmem
        rw [← hb]
        exact sanitizeChar_fixed (sanitizeChar_not_illegal b)
      calc t.map sanitizeChar = t.map id := List.map_congr_left (by
              intro a ha; simp [hfx a ha])
        _ = t := List.map_id t
    rw [hfix, ht, stripChars_idem]

/-! ## Unfolding lemmas for the tier loop -/

section LoopLemmas

variable (env : DlEnv) (base : String) (ft : SongFileType) (lbl : String)
variable (rest : Strategy) (i : Nat) (fs : FS)

lemma downloadLoop_nil : downloadLoop env base [] i fs = (Outcome.failed, fs, []) := rfl

lemma downloadLoop_skip (h : (fs.lookup (base ++ ft.e)).isSome = true) :
    downloadLoop env base ((ft, lbl) :: rest) i fs = (Outcome.skipped i, fs, []) := by
  simp [downloadLoop, h]

lemma downloadLoop_noUrl (hmiss : (fs.lookup (base ++ ft.e)).isSome = false)
    (hf : env.fetch i = TierFetch.noUrl) :
    downloadLoop env base ((ft, lbl) :: rest) i fs =
      ((downloadLoop env base rest (i + 1) fs).1,
       (downloadLoop env base rest (i + 1) fs).2.1,
       NetEvent.resolveUrl i :: (downloadLoop env base rest (i + 1) fs).2.2) := by
  simp [downloadLoop, hmiss, hf]

lemma downloadLoop_netRaise (hmiss : (fs.lookup (base ++ ft.e)).isSome = false)
    (hf : env.fetch i = TierFetch.netRaise) :
    downloadLoop env base ((ft, lbl) :: rest) i fs =
      (Outcome.errored, fs, [NetEvent.resolveUrl i, NetEvent.fetchBytes i]) := by
  simp [downloadLoop, hmiss, hf]

lemma downloadLoop_badStatus (hmiss : (fs.lookup (base ++ ft.e)).isSome = false)
    {status : Nat} {content : List Nat}
    (hf : env.fetch i = TierFetch.resp status content) (hst : ¬ status = 200) :
    downloadLoop env base ((ft, lbl) :: rest) i fs =
      ((downloadLoop env base rest (i + 1) fs).1,
       (downloadLoop env base rest (i + 1) fs).2.1,
       NetEvent.resolveUrl i :: NetEvent.fetchBytes i ::
         (downloadLoop env base rest (i + 1) fs).2.2) := by
  simp [downloadLoop, hmiss, hf, hst]

lemma downloadLoop_small (hmiss : (fs.lookup (base ++ ft.e)).isSome = false)
    {content : List Nat}
    (hf : env.fetch i = TierFetch.resp 200 content)
    (hsmall : content.length ≤ MIN_FILE_SIZE) :
    downloadLoop env base ((ft, lbl) :: rest) i fs =
      ((downloadLoop env base rest (i + 1) fs).1,
       (downloadLoop env base rest (i + 1) fs).2.1,
       NetEvent.resolveUrl i :: NetEvent.fetchBytes i ::
         (downloadLoop env base rest (i + 1) fs).2.2) := by
  simp [downloadLoop, hmiss, hf, Nat.not_lt.mpr hsmall]

lemma downloadLoop_success (hmiss : (fs.lookup (base ++ ft.e)).isSome = false)
    {content : List Nat}
    (hf : env.fetch i = TierFetch.resp 200 content)
    (hbig : MIN_FILE_SIZE < content.length) :
    downloadLoop env base ((ft, lbl) :: rest) i fs =
      (Outcome.succeeded i,
       (match env.meta i with
        | some tagged => setFile (setFile fs (base ++ ft.e) content) (base ++ ft.e) tagged
        | none => setFile fs (base ++ ft.e) content),
       [NetEvent.resolveUrl i, NetEvent.fetchBytes i]) := by
  simp [downloadLoop, hmiss, hf, hbig]

end LoopLemmas

/-- The written path is found afterwards, whatever the metadata writer did. -/
lemma lookup_after_success (env : DlEnv) (fs : FS) (p : String) (content : List Nat) (i : Nat) :
    ((match env.meta i with
      | some tagged => setFile (setFile fs p content) p tagged
      | none => setFile fs p content).lookup p).isSome = true := by
  cases env.meta i <;> simp [setFile, List.lookup]

/-- C5: for every tier, a 2xx fetch whose payload length is at most
`MIN_FILE_SIZE = 1024` bytes writes nothing to disk — the remaining tiers
run on the unchanged file system — and the downloader advances to the
next tier of the strategy. -/
theorem undersized_payload_rejected
    (env : DlEnv) (base : String) (ft : SongFileType) (lbl : String)
    (rest : Strategy) (i : Nat) (fs : FS) (content : List Nat)
    (hmiss : (fs.lookup (base ++ ft.e)).isSome = false)
    (hf : env.fetch i = TierFetch.resp 200 content)
    (hsmall : content.length ≤ MIN_FILE_SIZE) :
    downloadLoop env base ((ft, lbl) :: rest) i fs =
      ((downloadLoop env base rest (i + 1) fs).1,
       (downloadLoop env base rest (i + 1) fs).2.1,
       NetEvent.resolveUrl i :: NetEvent.fetchBytes i ::
         (downloadLoop env base rest (i + 1) fs).2.2) :=
  downloadLoop_small env base ft lbl rest i fs hmiss hf hsmall

/-- Witness for C5: a 3-byte payload at tier 0 of `[FLAC, MP3_320]` is
rejected and tier 1 is attempted on the unchanged (empty) file system. -/
theorem undersized_payload_rejected_witness :
    downloadLoop envC1 "music/X - Y" ((SongFileType.FLAC, "FLAC")
        :: [(SongFileType.MP3_320, "320kbps")]) 0 [] =
      ((downloadLoop envC1 "music/X - Y" [(SongFileType.MP3_320, "320kbps")] 1 []).1,
       (downloadLoop envC1 "music/X - Y" [(SongFileType.MP3_320, "320kbps")] 1 []).2.1,
       NetEvent.resolveUrl 0 :: NetEvent.fetchBytes 0 ::
         (downloadLoop envC1 "music/X - Y" [(SongFileType.MP3_320, "320kbps")] 1 []).2.2) :=
  undersized_payload_rejected envC1 "music/X - Y" SongFileType.FLAC "FLAC"
    [(SongFileType.MP3_320, "320kbps")] 0 [] smallContent (by decide) (by decide) (by decide)

/-- C7: when the metadata writer fails after a successful download
(`env.meta i = none`, i.e. `MetadataError` raised and caught inside
`_add_metadata`), the outcome is still `succeeded` at that tier and the
audio file remains on disk with exactly the downloaded bytes. -/
theorem metadata_failure_preserves_download
    (env : DlEnv) (base : String) (ft : SongFileType) (lbl : String)
    (rest : Strategy) (i : Nat) (fs : FS) (content : List Nat)
    (hmiss : (fs.lookup (base ++ ft.e)).isSome = false)
    (hf : env.fetch i = TierFetch.resp 200 content)
    (hbig : MIN_FILE_SIZE < content.length)
    (hmeta : env.meta i = none) :
    downloadLoop env base ((ft, lbl) :: rest) i fs =
      (Outcome.succeeded i, setFile fs (base ++ ft.e) content,
       [NetEvent.resolveUrl i, NetEvent.fetchBytes i])
    ∧ (setFile fs (base ++ ft.e) content).lookup (base ++ ft.e) = some content := by
  constructor
  · rw [downloadLoop_success env base ft lbl rest i fs hmiss hf hbig, hmeta]
  · simp [setFile, List.lookup]

/-- Witness for C7: tier 1 of `envC2` downloads 1025 bytes, the metadata
writer fails, the outcome is `succeeded 1` and the bytes are on disk. -/
theorem metadata_failure_preserves_download_witness :
    downloadLoop envC2 "music/X - Y" ((SongFileType.MP3_320, "320kbps") :: []) 1 [] =
      (Outcome.succeeded 1, setFile [] ("music/X - Y" ++ SongFileType.MP3_320.e) bigContent,
       [NetEvent.resolveUrl 1, NetEvent.fetchBytes 1])
    ∧ (setFile [] ("music/X - Y" ++ SongFileType.MP3_320.e) bigContent).lookup
        ("music/X - Y" ++ SongFileType.MP3_320.e) = some bigContent :=
  metadata_failure_preserves_download envC2 "music/X - Y" SongFileType.MP3_320 "320kbps"
    [] 1 [] bigContent (by decide) (by decide) (by decide) (by decide)

/-- C3: for a strategy `[A, B, C]` where tier A's URL resolution returns
null and tier B's fetch succeeds with a payload above the minimum size,
the outcome is `succeeded` at tier B (index 1), the network trace is
exactly `[resolveUrl 0, resolveUrl 1, fetchBytes 1]` (so nothing — neither
URL resolution nor bytes — is fetched for tier C, and no bytes for A),
and the tier-B file is written. -/
theorem fallback_order
    (env : DlEnv) (base : String) (A B C : SongFileType × String) (fs : FS)
    (content : List Nat)
    (hA : (fs.lookup (base ++ A.1.e)).isSome = false)
    (hB : (fs.lookup (base ++ B.1.e)).isSome = false)
    (hAu : env.fetch 0 = TierFetch.noUrl)
    (hBr : env.fetch 1 = TierFetch.resp 200 content)
    (hbig : MIN_FILE_SIZE < content.length) :
    downloadLoop env base [A, B, C] 0 fs =
      (Outcome.succeeded 1,
       (match env.meta 1 with
        | some tagged => setFile (setFile fs (base ++ B.1.e) content) (base ++ B.1.e) tagged
        | none => setFile fs (base ++ B.1.e) content),
       [NetEvent.resolveUrl 0, NetEvent.resolveUrl 1, NetEvent.fetchBytes 1])
    ∧ ((downloadLoop env base [A, B, C] 0 fs).2.1.lookup (base ++ B.1.e)).isSome = true := by
  obtain ⟨ftA, lblA⟩ := A
  obtain ⟨ftB, lblB⟩ := B
  rw [downloadLoop_noUrl env base ftA lblA [(ftB, lblB), C] 0 fs hA hAu,
    downloadLoop_success env base ftB lblB [C] 1 fs hB hBr hbig]
  exact ⟨rfl, lookup_after_success env fs _ content 1⟩

/-- Witness for C3: concrete environment with tier 0 URL-less and tier 1
serving 1025 bytes, on the strategy `[FLAC, MP3_320, MP3_128]`. -/
theorem fallback_order_witness :
    downloadLoop envC3 "music/X - Y" [(SongFileType.FLAC, "FLAC"),
        (SongFileType.MP3_320, "320kbps"), (SongFileType.MP3_128, "128kbps")] 0 [] =
      (Outcome.succeeded 1,
       (match envC3.meta 1 with
        | some tagged => setFile (setFile [] ("music/X - Y" ++ SongFileType.MP3_320.e)
            bigContent) ("music/X - Y" ++ SongFileType.MP3_320.e) tagged
        | none => setFile [] ("music/X - Y" ++ SongFileType.MP3_320.e) bigContent),
       [NetEvent.resolveUrl 0, NetEvent.resolveUrl 1, NetEvent.fetchBytes 1])
    ∧ ((downloadLoop envC3 "music/X - Y" [(SongFileType.FLAC, "FLAC"),
        (SongFileType.MP3_320, "320kbps"), (SongFileType.MP3_128, "128kbps")] 0 []).2.1.lookup
          ("music/X - Y" ++ SongFileType.MP3_320.e)).isSome = true :=
  fallback_order envC3 "music/X - Y" (SongFileType.FLAC, "FLAC")
    (SongFileType.MP3_320, "320kbps") (SongFileType.MP3_128, "128kbps") [] bigContent
    (by decide) (by decide) (by decide) (by decide) (by decide)

/-- Counterexample to C2 as stated: with the strategy `[FLAC, MP3_320]`,
a transport error at tier 0 does NOT advance to tier 1 — the track errors
out with no tier-1 network event at all — even though tier 1 would have
succeeded (it serves a 1025-byte payload). -/
theorem network_error_cex :
    (downloadLoop envC2 "music/X - Y" stratFM 0 []).1 = Outcome.errored
    ∧ NetEvent.resolveUrl 1 ∉ (downloadLoop envC2 "music/X - Y" stratFM 0 []).2.2
    ∧ NetEvent.fetchBytes 1 ∉ (downloadLoop envC2 "music/X - Y" stratFM 0 []).2.2
    ∧ envC2.fetch 1 = TierFetch.resp 200 bigContent
    ∧ MIN_FILE_SIZE < bigContent.length := by
  decide

/-- C2 (amended): a transport error or timeout while fetching a tier's
bytes raises `DownloadError`, which aborts the remaining tiers of the
track (outcome `errored`, no further network events, file system
untouched); the exception is caught inside the per-track downloader, so
`download_single_song` returns the plain value `false` and nothing
propagates to the batch level. -/
theorem network_error_aborts_track
    (env : DlEnv) (base : String) (ft : SongFileType) (lbl : String)
    (rest : Strategy) (i : Nat) (fs : FS)
    (hmiss : (fs.lookup (base ++ ft.e)).isSome = false)
    (hf : env.fetch i = TierFetch.netRaise) :
    downloadLoop env base ((ft, lbl) :: rest) i fs =
      (Outcome.errored, fs, [NetEvent.resolveUrl i, NetEvent.fetchBytes i])
    ∧ ∀ (folder : String) (info : SongInfo) (strat : Strategy) (fs' : FS),
        (downloadLoop env (songPath folder info) strat 0 fs').1 = Outcome.errored →
        (download_single_song true env folder info strat fs').1 = false := by
  refine ⟨downloadLoop_netRaise env base ft lbl rest i fs hmiss hf, ?_⟩
  intro folder info strat fs' herr
  simp [download_single_song, herr, Outcome.toBool]

/-- Witness for C2 (amended), at `envC2` and the track `X - Y`:
the concrete erroring run and the concrete `false` returned to the batch. -/
theorem network_error_aborts_track_witness :
    downloadLoop envC2 ("music/X - Y") ((SongFileType.FLAC, "FLAC")
        :: [(SongFileType.MP3_320, "320kbps")]) 0 [] =
      (Outcome.errored, [], [NetEvent.resolveUrl 0, NetEvent.fetchBytes 0])
    ∧ (download_single_song true envC2 "music" infoXY stratFM []).1 = false := by
  have h := network_error_aborts_track envC2 "music/X - Y" SongFileType.FLAC "FLAC"
    [(SongFileType.MP3_320, "320kbps")] 0 [] (by decide) (by decide)
  exact ⟨h.1, h.2 "music" infoXY stratFM [] (by decide)⟩

/-! ## Re-running the tier loop on its own output (claim C1) -/

/-- If a run of the tier loop (from index `idx`) succeeded at tier `i`,
then re-running the loop on the resulting file system with the same
deterministic environment skips at some tier `j ≤ i`, changes nothing on
disk, and performs network events only at tiers strictly before `j` (in
particular, none at any tier whose path now exists, and none at `i`). -/
lemma loop_rerun (env : DlEnv) (base : String) :
    ∀ (strat : Strategy) (idx : Nat) (fs0 : FS) (i : Nat),
      (downloadLoop env base strat idx fs0).1 = Outcome.succeeded i →
      ∃ j tr2, idx ≤ j ∧ j ≤ i ∧
        downloadLoop env base strat idx (downloadLoop env base strat idx fs0).2.1
          = (Outcome.skipped j, (downloadLoop env base strat idx fs0).2.1, tr2) ∧
        ∀ e ∈ tr2, e.idx < j := by
  intro strat
  induction strat with
  | nil =>
    intro idx fs0 i h
    simp [downloadLoop_nil] at h
  | cons hd rest ih =>
    obtain ⟨ft, lbl⟩ := hd
    intro idx fs0 i h
    cases hex : (fs0.lookup (base ++ ft.e)).isSome with
    | true =>
      rw [downloadLoop_skip env base ft lbl rest idx fs0 hex] at h
      simp at h
    | false =>
      cases hfetch : env.fetch idx with
      | noUrl =>
        rw [downloadLoop_noUrl env base ft lbl rest idx fs0 hex hfetch] at h
        simp only at h
        obtain ⟨j, tr2, hij, hji, hrun, hidx⟩ := ih (idx + 1) fs0 i h
        have hfs1 : (downloadLoop env base ((ft, lbl) :: rest) idx fs0).2.1
            = (downloadLoop env base rest (idx + 1) fs0).2.1 := by
          rw [downloadLoop_noUrl env base ft lbl rest idx fs0 hex hfetch]
        rw [hfs1]
        cases hex1 : ((downloadLoop env base rest (idx + 1) fs0).2.1.lookup
            (base ++ ft.e)).isSome with
        | true =>
          refine ⟨idx, [], Nat.le_refl idx, Nat.le_of_succ_le (Nat.le_trans hij hji),
            ?_, by simp⟩
          exact downloadLoop_skip env base ft lbl rest idx _ hex1
        | false =>
          refine ⟨j, NetEvent.resolveUrl idx :: tr2, Nat.le_of_succ_le hij, hji, ?_, ?_⟩
          · rw [downloadLoop_noUrl env base ft lbl rest idx _ hex1 hfetch, hrun]
          · intro e he
            rcases List.mem_cons.mp he with he | he
            · subst he
              exact Nat.lt_of_succ_le hij
            · exact hidx e he
      | netRaise =>
        rw [downloadLoop_netRaise env base ft lbl rest idx fs0 hex hfetch] at h
        simp at h
      | resp status content =>
        by_cases h200 : status = 200
        · subst h200
          by_cases hbig : MIN_FILE_SIZE < content.length
          · rw [downloadLoop_success env base ft lbl rest idx fs0 hex hfetch hbig] at h ⊢
            simp only [Outcome.succeeded.injEq] at h
            refine ⟨idx, [], Nat.le_refl idx, Nat.le_of_eq h, ?_, by simp⟩
            exact downloadLoop_skip env base ft lbl rest idx _
              (lookup_after_success env fs0 (base ++ ft.e) content idx)
          · have hsmall : content.length ≤ MIN_FILE_SIZE := Nat.le_of_not_lt hbig
            rw [downloadLoop_small env base ft lbl rest idx fs0 hex hfetch hsmall] at h
            simp only at h
            obtain ⟨j, tr2, hij, hji, hrun, hidx⟩ := ih (idx + 1) fs0 i h
            have hfs1 : (downloadLoop env base ((ft, lbl) :: rest) idx fs0).2.1
                = (downloadLoop env base rest (idx + 1) fs0).2.1 := by
              rw [downloadLoop_small env base ft lbl rest idx fs0 hex hfetch hsmall]
            rw [hfs1]
            cases hex1 : ((downloadLoop env base rest (idx + 1) fs0).2.1.lookup
                (base ++ ft.e)).isSome with
            | true =>
              refine ⟨idx, [], Nat.le_refl idx, Nat.le_of_succ_le (Nat.le_trans hij hji),
                ?_, by simp⟩
              exact downloadLoop_skip env base ft lbl rest idx _ hex1
            | false =>
              refine ⟨j, NetEvent.resolveUrl idx :: NetEvent.fetchBytes idx :: tr2,
                Nat.le_of_succ_le hij, hji, ?_, ?_⟩
              · rw [downloadLoop_small env base ft lbl rest idx _ hex1 hfetch hsmall, hrun]
              · intro e he
                rcases List.mem_cons.mp he with he | he
                · subst he
                  exact Nat.lt_of_succ_le hij
                rcases List.mem_cons.mp he with he | he
                · subst he
                  exact Nat.lt_of_succ_le hij
                · exact hidx e he
        · rw [downloadLoop_badStatus env base ft lbl rest idx fs0 hex hfetch h200] at h
          simp only at h
          obtain ⟨j, tr2, hij, hji, hrun, hidx⟩ := ih (idx + 1) fs0 i h
          have hfs1 : (downloadLoop env base ((ft, lbl) :: rest) idx fs0).2.1
              = (downloadLoop env base rest (idx + 1) fs0).2.1 := by
            rw [downloadLoop_badStatus env base ft lbl rest idx fs0 hex hfetch h200]
          rw [hfs1]
          cases hex1 : ((downloadLoop env base rest (idx + 1) fs0).2.1.lookup
              (base ++ ft.e)).isSome with
          | true =>
            refine ⟨idx, [], Nat.le_refl idx, Nat.le_of_succ_le (Nat.le_trans hij hji),
              ?_, by simp⟩
            exact downloadLoop_skip env base ft lbl rest idx _ hex1
          | false =>
            refine ⟨j, NetEvent.resolveUrl idx :: NetEvent.fetchBytes idx :: tr2,
              Nat.le_of_succ_le hij, hji, ?_, ?_⟩
            · rw [downloadLoop_badStatus env base ft lbl rest idx _ hex1 hfetch h200, hrun]
            · intro e he
              rcases List.mem_cons.mp he with he | he
              · subst he
                exact Nat.lt_of_succ_le hij
              rcases List.mem_cons.mp he with he | he
              · subst he
                exact Nat.lt_of_succ_le hij
              · exact hidx e he

/-- Counterexample to C1 as stated: with `envC1` (tier 0 serves an
undersized payload, tier 1 succeeds), the two consecutive calls to
`download_song` on the same track/strategy/folder perform THREE audio-byte
fetches in total — the second call re-probes the tier-0 miss before
hitting the existing tier-1 file — although the second call does return
the skipped outcome and leaves the file system unchanged. -/
theorem download_idempotence_cex :
    ((download_song envC1 "music" infoXY stratFM []).2.2
        ++ (download_song envC1 "music" infoXY stratFM
              (download_song envC1 "music" infoXY stratFM []).2.1).2.2).countP
      (fun e => e.isFetch) = 3
    ∧ (download_song envC1 "music" infoXY stratFM []).1 = Outcome.succeeded 1
    ∧ (download_song envC1 "music" infoXY stratFM
        (download_song envC1 "music" infoXY stratFM []).2.1).1 = Outcome.skipped 1
    ∧ (download_song envC1 "music" infoXY stratFM
        (download_song envC1 "music" infoXY stratFM []).2.1).2.1
      = (download_song envC1 "music" infoXY stratFM []).2.1 := by
  decide

/-- C1 (amended): with a deterministic environment, if the first
`download_song` call returns `succeeded` at tier `i`, the second call with
the identical track, strategy and folder returns `skipped` (at some tier
`j ≤ i`), leaves the file system byte-identical, and makes no network call
at any tier ≥ `j` — in particular none for the tier whose file exists
(path existence suppresses the network call for that tier). Tiers before
`j`, however, are re-probed, so the two calls together may perform more
than one network fetch (see the counterexample). -/
theorem second_call_skips
    (env : DlEnv) (folder : String) (info : SongInfo) (strat : Strategy)
    (fs0 : FS) (i : Nat)
    (h : (download_song env folder info strat fs0).1 = Outcome.succeeded i) :
    ∃ j tr2, j ≤ i ∧
      download_song env folder info strat (download_song env folder info strat fs0).2.1
        = (Outcome.skipped j, (download_song env folder info strat fs0).2.1, tr2) ∧
      ∀ e ∈ tr2, e.idx < j := by
  obtain ⟨j, tr2, _, hji, hrun, hidx⟩ :=
    loop_rerun env (songPath folder info) strat 0 fs0 i h
  exact ⟨j, tr2, hji, hrun, hidx⟩

/-- Witness for C1 (amended): at `envC1`, the first call succeeds at tier
1 and the second call skips at tier 1 with no events at tiers ≥ 1. -/
theorem second_call_skips_witness :
    (download_song envC1 "music" infoXY stratFM []).1 = Outcome.succeeded 1
    ∧ ∃ j tr2, j ≤ 1 ∧
        download_song envC1 "music" infoXY stratFM
            (download_song envC1 "music" infoXY stratFM []).2.1
          = (Outcome.skipped j, (download_song envC1 "music" infoXY stratFM []).2.1, tr2) ∧
        ∀ e ∈ tr2, e.idx < j :=
  ⟨by decide, second_call_skips envC1 "music" infoXY stratFM [] 1 (by decide)⟩

/-! ## Batch counting lemmas (claims C8 and C10) -/

lemma count_true_add_count_false (l : List Bool) :
    l.count true + l.count false = l.length := by
  induction l with
  | nil => rfl
  | cons b t ih => cases b <;> simp [List.count_cons] <;> omega

lemma count_true_map {α : Type} (f : α → Bool) (l : List α) :
    (l.map f).count true = l.countP f := by
  induction l with
  | nil => rfl
  | cons a t ih => cases hfa : f a <;> simp [List.count_cons, List.countP_cons, hfa, ih]

lemma count_false_map {α : Type} (f : α → Bool) (l : List α) :
    (l.map f).count false = l.countP (fun a => !(f a)) := by
  induction l with
  | nil => rfl
  | cons a t ih => cases hfa : f a <;> simp [List.count_cons, List.countP_cons, hfa, ih]

/-- The window loop's counters: with enough fuel (the list length) and a
positive window size, the final counters are the initial ones plus the
number of `true` / `false` per-track results over the whole list —
independently of the windowing. -/
lemma songlistLoop_counts {α : Type} (run : α → Bool) (bs : Nat) (hbs : 0 < bs) :
    ∀ (fuel : Nat) (l : List α) (done succ fail : Nat), l.length ≤ fuel →
      (songlistLoop run bs fuel l done succ fail).1
        = (succ + (l.map run).count true, fail + (l.map run).count false) := by
  intro fuel
  induction fuel with
  | zero =>
    intro l done succ fail hl
    have hnil : l = [] := List.eq_nil_of_length_eq_zero (Nat.le_zero.mp hl)
    subst hnil
    simp [songlistLoop]
  | succ fuel ih =>
    intro l done succ fail hl
    cases l with
    | nil => simp [songlistLoop]
    | cons x xs =>
      have hrest : ((x :: xs).drop bs).length ≤ fuel := by
        rw [List.length_drop]
        simp only [List.length_cons] at hl ⊢
        omega
      simp only [songlistLoop]
      rw [ih _ _ _ _ hrest]
      simp only [Prod.mk.injEq]
      constructor <;>
        rw [Nat.add_assoc, ← List.count_append, ← List.map_append, List.take_append_drop]

/-- Counterexample to C8 as stated: without a credential,
`download_songlist` on a one-track list returns `(0, 0)` with no progress
report — the counters do not sum to the number of tracks. -/
theorem batch_no_credential_cex :
    download_songlist false (fun _ : Unit => true) [()] = ((0, 0), [])
    ∧ (download_songlist false (fun _ : Unit => true) [()]).1.1
        + (download_songlist false (fun _ : Unit => true) [()]).1.2
      ≠ [()].length := by
  decide

/-- C8 (amended): when a credential is present, `download_songlist`
partitions the tracks into consecutive `BATCH_SIZE` windows, completes
each whole window before the next, and returns `(successCount,
failureCount)` where the counts are exactly the per-track results over
the whole list (a per-track failure — including a caught exception — is
counted, never propagated) and sum to the number of tracks. For 7 tracks
with window size 3, progress is reported after tracks 3, 6 and 7, with a
sleep after every window except the last. -/
theorem batch_orchestration :
    (∀ {α : Type} (run : α → Bool) (tracks : List α),
      (download_songlist true run tracks).1.1 = (tracks.map run).count true
      ∧ (download_songlist true run tracks).1.2 = (tracks.map run).count false
      ∧ (download_songlist true run tracks).1.1 + (download_songlist true run tracks).1.2
          = tracks.length)
    ∧ songlistLoop (fun _ : Nat => true) 3 7 (List.range 7) 0 0 0
        = ((7, 0), [BatchEvent.progress 3 3 0, BatchEvent.sleep,
            BatchEvent.progress 6 6 0, BatchEvent.sleep, BatchEvent.progress 7 7 0]) := by
  constructor
  · intro α run tracks
    have h := songlistLoop_counts run BATCH_SIZE (by decide) tracks.length tracks 0 0 0
      (Nat.le_refl _)
    have hd : download_songlist true run tracks
        = songlistLoop run BATCH_SIZE tracks.length tracks 0 0 0 := by
      simp [download_songlist]
    refine ⟨?_, ?_, ?_⟩
    · rw [hd, h]; simp
    · rw [hd, h]; simp
    · rw [hd, h]
      simp only [Nat.zero_add]
      rw [count_true_add_count_false, List.length_map]
  · decide

/-- C10: a skipped track (destination already on disk) is
indistinguishable from a success at the batch level: `Outcome.toBool`
sends both `skipped` and `succeeded` to `true` (and both `failed` and the
caught-exception outcome to `false`); `download_single_song` returns
`true` on a skip; and the batch counters count exactly the
`true`-returning tracks as successes — so every skipped track lands in
`successCount` and never in `failureCount`. -/
theorem skip_counts_as_success :
    (∀ i, (Outcome.skipped i).toBool = true)
    ∧ (∀ i, (Outcome.succeeded i).toBool = true)
    ∧ Outcome.failed.toBool = false
    ∧ Outcome.errored.toBool = false
    ∧ (∀ (env : DlEnv) (folder : String) (info : SongInfo) (strat : Strategy)
        (fs : FS) (i : Nat),
        (downloadLoop env (songPath folder info) strat 0 fs).1 = Outcome.skipped i →
        (download_single_song true env folder info strat fs).1 = true)
    ∧ (∀ {α : Type} (outcome : α → Outcome) (tracks : List α),
        (download_songlist true (fun t => (outcome t).toBool) tracks).1.1
          = tracks.countP (fun t => (outcome t).toBool)
        ∧ (download_songlist true (fun t => (outcome t).toBool) tracks).1.2
          = tracks.countP (fun t => !(outcome t).toBool)) := by
  refine ⟨fun i => rfl, fun i => rfl, rfl, rfl, ?_, ?_⟩
  · intro env folder info strat fs i hskip
    simp [download_single_song, hskip, Outcome.toBool]
  · intro α outcome tracks
    have h := songlistLoop_counts (fun t => (outcome t).toBool) BATCH_SIZE (by decide)
      tracks.length tracks 0 0 0 (Nat.le_refl _)
    have hd : download_songlist true (fun t => (outcome t).toBool) tracks
        = songlistLoop (fun t => (outcome t).toBool) BATCH_SIZE tracks.length tracks 0 0 0 := by
      simp [download_songlist]
    constructor
    · rw [hd, h]
      simp only [Nat.zero_add]
      exact count_true_map _ tracks
    · rw [hd, h]
      simp only [Nat.zero_add]
      exact count_false_map _ tracks

/-- Witness for C10: with the tier-0 file already on disk, the track is
skipped and `download_single_song` returns `true`. -/
theorem skip_counts_as_success_witness :
    (download_single_song true envC1 "music" infoXY stratFM fsSkip).1 = true :=
  skip_counts_as_success.2.2.2.2.1 envC1 "music" infoXY stratFM fsSkip 0 (by decide)

/-! ## Cover resolver lemmas (claim C6) -/

lemma mem_vs_single_priority {vs_values : List String} {c : VsCandidate}
    (h : c ∈ vs_single_candidates vs_values) : c.priority = 1 := by
  obtain ⟨v, _, hv⟩ := List.mem_map.mp h
  rw [← hv]

lemma mem_vs_part_priority {vs_values : List String} {c : VsCandidate}
    (h : c ∈ vs_part_candidates vs_values) : c.priority = 2 := by
  obtain ⟨v, _, hv⟩ := List.mem_flatMap.mp h
  obtain ⟨p, _, hp⟩ := List.mem_map.mp hv
  rw [← hp]

lemma pairwise_priority_const {l : List VsCandidate} {k : Nat}
    (h : ∀ c ∈ l, c.priority = k) :
    List.Pairwise (fun a b : VsCandidate => a.priority ≤ b.priority) l := by
  induction l with
  | nil => exact List.Pairwise.nil
  | cons a t ih =>
    refine List.Pairwise.cons ?_ (ih (fun c hc => h c (List.mem_cons_of_mem a hc)))
    intro b hb
    rw [h a (List.mem_cons_self a t), h b (List.mem_cons_of_mem a hb)]

/-- The stable priority sort is the identity on the collected candidates:
all pass-1 entries (priority 1) already precede all pass-2 entries
(priority 2). -/
lemma candidate_vs_eq (vs_values : List String) :
    candidate_vs vs_values
      = vs_single_candidates vs_values ++ vs_part_candidates vs_values := by
  apply List.Sorted.insertionSort_eq
  refine List.pairwise_append.mpr ⟨?_, ?_, ?_⟩
  · exact pairwise_priority_const (fun c hc => mem_vs_single_priority hc)
  · exact pairwise_priority_const (fun c hc => mem_vs_part_priority hc)
  · intro a ha b hb
    rw [mem_vs_single_priority ha, mem_vs_part_priority hb]
    omega

/-- The probing loop returns the first candidate URL whose probe
validates, and probes exactly the URLs up to and including it. -/
lemma try_candidates_spec (env : CoverEnv) (size : Nat) :
    ∀ cands, try_candidates env size cands
      = (specFirstValidUrl env (candidateUrls size cands),
         specProbed env (candidateUrls size cands)) := by
  intro cands
  induction cands with
  | nil => rfl
  | cons c rest ih =>
    cases hurl : get_cover_url_by_vs c.value size with
    | none =>
      have hcu : candidateUrls size (c :: rest) = candidateUrls size rest := by
        simp [candidateUrls, List.filterMap_cons, hurl]
      simp only [try_candidates, hurl]
      rw [hcu]
      exact ih
    | some url =>
      have hcu : candidateUrls size (c :: rest) = url :: candidateUrls size rest := by
        simp [candidateUrls, List.filterMap_cons, hurl]
      cases hdl : download_cover env (some url) with
      | some d =>
        have hfind : specFirstValidUrl env (url :: candidateUrls size rest) = some url := by
          unfold specFirstValidUrl
          exact List.find?_cons_of_pos _ (by simp [hdl])
        have hprob : specProbed env (url :: candidateUrls size rest) = [url] := by
          simp [specProbed, hdl]
        simp only [try_candidates, hurl, hdl]
        rw [hcu, hfind, hprob]
      | none =>
        have hfind : specFirstValidUrl env (url :: candidateUrls size rest)
            = specFirstValidUrl env (candidateUrls size rest) := by
          unfold specFirstValidUrl
          exact List.find?_cons_of_neg _ (by simp [hdl])
        have hprob : specProbed env (url :: candidateUrls size rest)
            = url :: specProbed env (candidateUrls size rest) := by
          simp [specProbed, hdl]
        simp only [try_candidates, hurl, hdl]
        rw [hcu, hfind, hprob, ih]

/-- C6: the cover resolver tries the album-mid URL first (when the album
mid is non-empty) and returns it immediately when its probe validates;
failing that it probes the `vs` candidates — every comma-free hint of
length ≥ 3 at priority 1 in source order, then every trimmed comma-split
part of length ≥ 3 at priority 2 in source order, the stable priority
sort being the identity on this list — returning the first candidate URL
whose probe yields more than `MIN_FILE_SIZE` bytes beginning with JPEG or
PNG magic; URLs after the first valid one are never probed, and if none
validates the resolver returns nothing. -/
theorem cover_candidate_ordering :
    (∀ vs_values, candidate_vs vs_values
        = vs_single_candidates vs_values ++ vs_part_candidates vs_values)
    ∧ (∀ (env : CoverEnv) (mid : String) (vs_values : List String) (size : Nat)
        (u : String) (d : List Nat),
        get_cover_url_by_album_mid mid size = some u →
        download_cover env (some u) = some d →
        get_valid_cover_url env mid vs_values size = (some u, [u]))
    ∧ (∀ (env : CoverEnv) (mid : String) (vs_values : List String) (size : Nat)
        (u : String),
        get_cover_url_by_album_mid mid size = some u →
        download_cover env (some u) = none →
        get_valid_cover_url env mid vs_values size
          = ((try_candidates env size (candidate_vs vs_values)).1,
             u :: (try_candidates env size (candidate_vs vs_values)).2))
    ∧ (∀ (env : CoverEnv) (vs_values : List String) (size : Nat),
        get_valid_cover_url env "" vs_values size
          = try_candidates env size (candidate_vs vs_values))
    ∧ (∀ (env : CoverEnv) (size : Nat) (cands : List VsCandidate),
        try_candidates env size cands
          = (specFirstValidUrl env (candidateUrls size cands),
             specProbed env (candidateUrls size cands)))
    ∧ (∀ (env : CoverEnv) (size : Nat) (cands : List VsCandidate),
        (∀ u ∈ candidateUrls size cands, (download_cover env (some u)).isSome = false) →
        (try_candidates env size cands).1 = none) := by
  refine ⟨candidate_vs_eq, ?_, ?_, ?_, try_candidates_spec, ?_⟩
  · intro env mid vs_values size u d hmid hdl
    simp only [get_valid_cover_url, hmid, hdl]
  · intro env mid vs_values size u hmid hdl
    simp only [get_valid_cover_url, hmid, hdl]
  · intro env vs_values size
    simp [get_valid_cover_url, get_cover_url_by_album_mid]
  · intro env size cands hnone
    rw [try_candidates_spec env size cands]
    simp only [specFirstValidUrl]
    rw [List.find?_eq_none]
    intro u hu
    simp [hnone u hu]

/-- Witness for C6: with every URL serving valid JPEG bytes, a non-empty
album mid wins immediately (one probe); with an empty album mid and
`vs = ["x,abcd", "efg"]`, the priority-1 single token `"efg"` wins over
the comma-split part `"abcd"` even though it appears later in the source
list, and only its URL is probed. -/
theorem cover_candidate_ordering_witness :
    get_valid_cover_url envC6 "albm" ["x,abcd", "efg"] 800
      = (some "https://y.gtimg.cn/music/photo_new/T002R800x800M000albm.jpg",
         ["https://y.gtimg.cn/music/photo_new/T002R800x800M000albm.jpg"])
    ∧ get_valid_cover_url envC6 "" ["x,abcd", "efg"] 800
      = (some "https://y.qq.com/music/photo_new/T062R800x800M000efg.jpg",
         ["https://y.qq.com/music/photo_new/T062R800x800M000efg.jpg"]) := by
  constructor
  · exact cover_candidate_ordering.2.1 envC6 "albm" ["x,abcd", "efg"] 800 _ jpegBytes
      (by decide) (by decide)
  · rw [cover_candidate_ordering.2.2.2.1 envC6 ["x,abcd", "efg"] 800,
      cover_candidate_ordering.2.2.2.2.1 envC6 800 (candidate_vs ["x,abcd", "efg"])]
    decide

/-- C4 (code bug, lossy path): `_clear_existing_mp3_tags` deletes only the
exact mutagen hash keys `'APIC:'` and `'USLT:'`. An existing image frame
with a non-empty description (hash key `"APIC:Front"`) survives the
clearing, and `audio.add` only replaces the frame with the identical hash
key — so after re-tagging with a resolved cover (desc `'Cover'`) the file
holds TWO embedded images, not one. The `'USLT:'` key can never match any
USLT frame (their hash keys are `"USLT:" + desc + ":" + lang`), not even
the lyrics frames this very program writes. -/
theorem mp3_retag_keeps_stale_cover :
    clear_existing_mp3_tags oldCoverTag = oldCoverTag
    ∧ countApic (add_metadata_to_mp3_tags oldCoverTag infoXY
        (some ("https://y.gtimg.cn/c.jpg", [9, 9, 9])) none) = 2
    ∧ clear_existing_mp3_tags oldLyricsTag = oldLyricsTag := by
  decide

end QQMusic
